import Mathlib

/-!
Shallow embedding of the @-profile history/starring helpers
(`src/helpers/apps.ts`) and the history tool (`src/tools/history.ts`).

JavaScript strings are modelled through their character sequences: each
JS string operation used by the source (`trim`, `toLowerCase`,
`startsWith("@")`, `slice(1)`, `includes`) is given an explicit
definition over `String.data`.  `LocalStorage` is modelled as a record
of optional parsed values, one field per storage key; `getItem`
returning `undefined` corresponds to the field being `none`.
`Date.now()` is passed in as an explicit `now : Nat` parameter.
-/

/-- JS `String.prototype.trim()`: drop whitespace from both ends. -/
def trimChars (cs : List Char) : List Char :=
  ((cs.dropWhile Char.isWhitespace).reverse.dropWhile Char.isWhitespace).reverse

/-- JS `s.trim()` on the string wrapper. -/
def jsTrim (s : String) : String :=
  ⟨trimChars s.data⟩

/-- JS `s.toLowerCase()` (ASCII case mapping). -/
def jsToLower (s : String) : String :=
  ⟨s.data.map Char.toLower⟩

/-- JS `s.startsWith("@")`: the first character is `@`. -/
def jsStartsWithAt (s : String) : Bool :=
  match s.data with
  | c :: _ => c == '@'
  | [] => false

/-- JS `s.slice(1)`: drop the first character. -/
def jsDropFirst (s : String) : String :=
  ⟨s.data.drop 1⟩

/-- Whether `pre` occurs at the start of `l`. -/
def listPre : List Char → List Char → Bool
  | [], _ => true
  | _ :: _, [] => false
  | a :: as, b :: bs => a == b && listPre as bs

/-- JS `s.includes(sub)`: `sub` occurs contiguously inside `s`. -/
def jsIncludes (s sub : String) : Bool :=
  s.data.tails.any (fun t => listPre sub.data t)

/-- JS truthiness of an optional string argument: defined and non-empty. -/
def strTruthy : Option String → Bool
  | none => false
  | some s => !(s == "")

/-- `UsageHistoryItem{profile, app, appName, timestamp}` from `types.ts`. -/
structure UsageHistoryItem where
  profile : String
  app : String
  appName : String
  timestamp : Nat
deriving DecidableEq

/-- `AppSetting{value, visible}` from `types.ts`. -/
structure AppSetting where
  value : String
  visible : Bool
deriving DecidableEq

/-- `App{value, name, urlTemplate}` from `types.ts`. -/
structure App where
  value : String
  name : String
  urlTemplate : String
deriving DecidableEq

/-- The `LocalStorage` state: one optional parsed value per storage key
(`usageHistory`, `starredHistoryItems`, `appSettings`, `customApps`).
A `none` field models `getItem` returning `undefined`. -/
structure Storage where
  usageHistory : Option (List UsageHistoryItem)
  starredHistoryItems : Option (List String)
  appSettings : Option (List AppSetting)
  customApps : Option (List App)
deriving DecidableEq

/-- `normalizeApp` (apps.ts line 37): trim then lowercase. -/
def normalizeApp (app : String) : String :=
  jsToLower (jsTrim app)

/-- `normalizeProfile` (apps.ts line 41): trim, strip one leading `@`,
then lowercase. -/
def normalizeProfile (profile : String) : String :=
  let trimmed := jsTrim profile
  jsToLower (if jsStartsWithAt trimmed then jsDropFirst trimmed else trimmed)

/-- `getHistoryPairKey` (apps.ts line 46). -/
def getHistoryPairKey (profile app : String) : String :=
  normalizeApp app ++ "::" ++ normalizeProfile profile

/-- `setStarredHistoryPairs` (apps.ts line 50): write the pair list back. -/
def setStarredHistoryPairs (s : Storage) (pairs : List String) : Storage :=
  { s with starredHistoryItems := some pairs }

/-- `getStarredHistoryPairs` (apps.ts line 58): stored list or `[]`. -/
def getStarredHistoryPairs (s : Storage) : List String :=
  s.starredHistoryItems.getD []

/-- `isHistoryItemStarred` (apps.ts line 68). -/
def isHistoryItemStarred (s : Storage) (profile app : String) : Bool :=
  (getStarredHistoryPairs s).contains (getHistoryPairKey profile app)

/-- `toggleStarredHistoryItem` (apps.ts line 80): returns the new starred
state together with the updated storage. -/
def toggleStarredHistoryItem (s : Storage) (profile app : String) : Bool × Storage :=
  let starredPairs := getStarredHistoryPairs s
  let key := getHistoryPairKey profile app
  if starredPairs.contains key then
    (false, setStarredHistoryPairs s (starredPairs.filter (fun pair => !(pair == key))))
  else
    (true, setStarredHistoryPairs s (starredPairs ++ [key]))

/-- `getUsageHistory` (apps.ts line 167): stored list or `[]`. -/
def getUsageHistory (s : Storage) : List UsageHistoryItem :=
  s.usageHistory.getD []

/-- `getCustomApps` (apps.ts line 158): stored list or `[]`. -/
def getCustomApps (s : Storage) : List App :=
  s.customApps.getD []

/-- `getAppSettings` (apps.ts line 236): stored list or `[]`. -/
def getAppSettings (s : Storage) : List AppSetting :=
  s.appSettings.getD []

/-- The stable descending-timestamp sort
`array.sort((a, b) => b.timestamp - a.timestamp)`. -/
def sortByTimestampDesc (l : List UsageHistoryItem) : List UsageHistoryItem :=
  l.mergeSort (fun a b => decide (b.timestamp ≤ a.timestamp))

/-- The app-filter predicate of apps.ts line 115 / history.ts line 110:
value equal (case-insensitive) or display name containing the filter. -/
def appFilterMatches (appLower : String) (item : UsageHistoryItem) : Bool :=
  jsToLower item.app == appLower || jsIncludes (jsToLower item.appName) appLower

/-- `getStarredUsageHistory` (apps.ts line 106): starred items, optionally
filtered by app, sorted by timestamp descending, optionally truncated. -/
def getStarredUsageHistory (s : Storage) (app : Option String) (limit : Option Nat) :
    List UsageHistoryItem :=
  let usageHistory := getUsageHistory s
  let starredPairs := getStarredHistoryPairs s
  let filtered := usageHistory.filter
    (fun item => starredPairs.contains (getHistoryPairKey item.profile item.app))
  let filtered2 :=
    if strTruthy app then
      filtered.filter (appFilterMatches (jsToLower (app.getD "")))
    else filtered
  let sorted := sortByTimestampDesc filtered2
  match limit with
  | some n => sorted.take n
  | none => sorted

/-- The settings `Map` of apps.ts line 132: `forEach`/`set` insertion with
later entries overwriting earlier ones under the same value. -/
def buildSettingsMap (settings : List AppSetting) : String → Option AppSetting :=
  settings.foldl (fun m setting => fun k => if k == setting.value then some setting else m k)
    (fun _ => none)

/-- `getAllApps` (apps.ts line 127).  `defaultApps` is imported from
`utils/default-apps.ts`, a file outside the given sources, so it is an
explicit parameter here. -/
def getAllApps (defaultApps : List App) (s : Storage) : List App :=
  let customApps := getCustomApps s
  let appSettings := getAppSettings s
  let settingsMap := buildSettingsMap appSettings
  (defaultApps ++ customApps).filter (fun app =>
    match settingsMap app.value with
    | some setting => setting.visible
    | none => true)

/-- `addToUsageHistory` (apps.ts line 178): drop entries with the same
raw (profile, app) pair, prepend the new entry, keep the first 20. -/
def addToUsageHistory (s : Storage) (profile app appName : String) (now : Nat) : Storage :=
  let history := getUsageHistory s
  let filtered := history.filter (fun item => !(item.profile == profile && item.app == app))
  let newItem : UsageHistoryItem := ⟨profile, app, appName, now⟩
  { s with usageHistory := some ((newItem :: filtered).take 20) }

/-- `removeUsageHistoryItem` (apps.ts line 201). -/
def removeUsageHistoryItem (s : Storage) (profile app : String) : Storage :=
  let history := getUsageHistory s
  let filtered := history.filter (fun item => !(item.profile == profile && item.app == app))
  { s with usageHistory := some filtered }

/-- `updateUsageHistoryItem` (apps.ts line 217): rename the matching
entries and refresh their timestamps. -/
def updateUsageHistoryItem (s : Storage) (oldProfile oldApp newProfile : String) (now : Nat) :
    Storage :=
  let history := getUsageHistory s
  let updated := history.map (fun item =>
    if item.profile == oldProfile && item.app == oldApp then
      { item with profile := newProfile, timestamp := now }
    else item)
  { s with usageHistory := some updated }

/-- C1: `addToUsageHistory` removes every entry with the given raw
(profile, app) pair, prepends the fresh entry stamped `now`, and keeps
only the first 20 entries of the result. -/
theorem addToUsageHistory_dedupe_prepend_truncate (s : Storage) (p a n : String) (now : Nat) :
    getUsageHistory (addToUsageHistory s p a n now) =
      ((⟨p, a, n, now⟩ : UsageHistoryItem) ::
        (getUsageHistory s).filter (fun item => decide (¬(item.profile = p ∧ item.app = a)))).take 20 ∧
    (getUsageHistory (addToUsageHistory s p a n now)).length ≤ 20 ∧
    ∀ item ∈ (getUsageHistory (addToUsageHistory s p a n now)).tail,
      ¬(item.profile = p ∧ item.app = a) := by
  have hfilter : ∀ L : List UsageHistoryItem,
      L.filter (fun item => !(item.profile == p && item.app == a)) =
      L.filter (fun item => decide (¬(item.profile = p ∧ item.app = a))) := by
    intro L
    apply List.filter_congr
    intro item _
    by_cases hp : item.profile = p <;> by_cases ha : item.app = a <;> simp [hp, ha]
  constructor
  · simp only [addToUsageHistory, getUsageHistory, Option.getD_some, hfilter]
  constructor
  · simp only [addToUsageHistory, getUsageHistory, Option.getD_some]
    exact List.length_take_le 20 _
  · intro item hmem
    simp only [addToUsageHistory, getUsageHistory, Option.getD_some] at hmem
    have h1 : item ∈ ((getUsageHistory s).filter
        (fun item => !(item.profile == p && item.app == a))).take 19 := by
      simpa using hmem
    have h2 := List.mem_of_mem_take h1
    have h3 := List.of_mem_filter h2
    simp only [Bool.not_eq_true', Bool.and_eq_false_iff, beq_eq_false_iff_ne] at h3
    rintro ⟨hp, ha⟩
    rcases h3 with h | h <;> exact h (by simp [hp, ha])

/-- C2: starting from a history of at most 20 entries, each of
`addToUsageHistory`, `removeUsageHistoryItem` and `updateUsageHistoryItem`
leaves a history of at most 20 entries. -/
theorem usageHistory_cap_invariant (s : Storage) (p a n np : String) (now : Nat)
    (h : (getUsageHistory s).length ≤ 20) :
    (getUsageHistory (addToUsageHistory s p a n now)).length ≤ 20 ∧
    (getUsageHistory (removeUsageHistoryItem s p a)).length ≤ 20 ∧
    (getUsageHistory (updateUsageHistoryItem s p a np now)).length ≤ 20 := by
  refine ⟨?_, ?_, ?_⟩
  · simp only [addToUsageHistory, getUsageHistory, Option.getD_some]
    exact List.length_take_le 20 _
  · simp only [removeUsageHistoryItem, getUsageHistory, Option.getD_some] at h ⊢
    exact le_trans (List.length_filter_le _ _) h
  · simp only [updateUsageHistoryItem, getUsageHistory, Option.getD_some] at h ⊢
    simpa using h

/-- C2 witness: the cap invariant applied to the empty store. -/
theorem usageHistory_cap_invariant_witness :
    (getUsageHistory (addToUsageHistory ⟨none, none, none, none⟩ "p" "a" "A" 5)).length ≤ 20 ∧
    (getUsageHistory (removeUsageHistoryItem ⟨none, none, none, none⟩ "p" "a")).length ≤ 20 ∧
    (getUsageHistory (updateUsageHistoryItem ⟨none, none, none, none⟩ "p" "a" "q" 5)).length ≤ 20 :=
  usageHistory_cap_invariant ⟨none, none, none, none⟩ "p" "a" "A" "q" 5 (by decide)

/-- Replay a sequence of (profile, timestamp) opens on app "x" from a
starting store, through `addToUsageHistory`. -/
def replayAdds (s : Storage) : List (String × Nat) → Storage
  | [] => s
  | (p, t) :: rest => replayAdds (addToUsageHistory s p "x" "X" t) rest

/-- 20 profiles p1..p20 opened at times 1..20, then p1 re-opened at 21:
a full history of 20 entries whose first-inserted pair is (p1, x). -/
def preState : Storage :=
  replayAdds ⟨none, none, none, none⟩
    (((List.range 20).map (fun i => ("p" ++ toString (i + 1), i + 1))) ++ [("p1", 21)])

/-- C3 counterexample: from `preState` (20 entries, first-inserted pair
(p1, x), p1 re-opened since), adding the absent pair (p21, x) drops the
entry of p2, not the first-inserted p1: eviction is not first-in
first-out by insertion order. -/
theorem fifo_eviction_counterexample :
    (getUsageHistory preState).length = 20 ∧
    (getUsageHistory preState).any (fun it => it.profile == "p1") = true ∧
    (getUsageHistory preState).any (fun it => it.profile == "p2") = true ∧
    (getUsageHistory preState).any (fun it => it.profile == "p21") = false ∧
    (getUsageHistory (addToUsageHistory preState "p21" "x" "X" 22)).any
      (fun it => it.profile == "p1") = true ∧
    (getUsageHistory (addToUsageHistory preState "p21" "x" "X" 22)).any
      (fun it => it.profile == "p2") = false := by decide

/-- C3 (amended): with a full history of 20 entries and a (profile, app)
pair not present, `addToUsageHistory` prepends the new entry and drops
exactly the last entry of the stored list - the least recently
added/re-opened one - so eviction is least-recently-used over the
stored order, not first-inserted order. -/
theorem addToUsageHistory_evicts_last (s : Storage) (p a n : String) (now : Nat)
    (hlen : (getUsageHistory s).length = 20)
    (habs : ∀ item ∈ getUsageHistory s, ¬(item.profile = p ∧ item.app = a)) :
    getUsageHistory (addToUsageHistory s p a n now) =
      (⟨p, a, n, now⟩ : UsageHistoryItem) :: (getUsageHistory s).dropLast := by
  have hf : (getUsageHistory s).filter (fun item => !(item.profile == p && item.app == a)) =
      getUsageHistory s := by
    rw [List.filter_eq_self]
    intro item hmem
    have hni := habs item hmem
    by_cases hp : item.profile = p <;> by_cases ha : item.app = a <;>
      simp [hp, ha] at hni ⊢
  simp only [addToUsageHistory, getUsageHistory, Option.getD_some] at hf ⊢
  rw [hf]
  have h20 : (20 : Nat) = 19 + 1 := rfl
  rw [List.dropLast_eq_take]
  simp only [getUsageHistory] at hlen
  rw [hlen, h20, List.take_succ_cons]

/-- C3 amended witness: the LRU eviction equation at the concrete
`preState`. -/
theorem addToUsageHistory_evicts_last_witness :
    getUsageHistory (addToUsageHistory preState "p21" "x" "X" 22) =
      (⟨"p21", "x", "X", 22⟩ : UsageHistoryItem) :: (getUsageHistory preState).dropLast :=
  addToUsageHistory_evicts_last preState "p21" "x" "X" 22 (by decide) (by decide)

/-- Filtering a key out of a pair list leaves a list not containing it. -/
theorem contains_filter_not_self (L : List String) (k : String) :
    (L.filter (fun pair => !(pair == k))).contains k = false := by
  rw [Bool.eq_false_iff]
  intro hcon
  have hmem : k ∈ L.filter (fun pair => !(pair == k)) := List.elem_iff.mp hcon
  have hpred := (List.mem_filter.mp hmem).2
  simp at hpred

/-- A pair list that does not contain a key is unchanged by filtering it out. -/
theorem filter_not_self_of_not_contains (L : List String) (k : String)
    (h : L.contains k = false) :
    L.filter (fun pair => !(pair == k)) = L := by
  rw [List.filter_eq_self]
  intro x hx
  have hne : x ≠ k := by
    intro hxk
    subst hxk
    rw [Bool.eq_false_iff] at h
    exact h (List.elem_iff.mpr hx)
  simp [hne]


/-- Reading the pair list straight after writing it gives it back. -/
@[simp]
theorem getStarred_set (s : Storage) (pairs : List String) :
    getStarredHistoryPairs (setStarredHistoryPairs s pairs) = pairs := rfl

/-- Toggle reduction when the key is present. -/
theorem toggle_eq_of_contains (s : Storage) (p a : String)
    (hc : (getStarredHistoryPairs s).contains (getHistoryPairKey p a) = true) :
    toggleStarredHistoryItem s p a =
      (false, setStarredHistoryPairs s ((getStarredHistoryPairs s).filter
        (fun pair => !(pair == getHistoryPairKey p a)))) := by
  simp only [toggleStarredHistoryItem]
  rw [if_pos hc]

/-- Toggle reduction when the key is absent. -/
theorem toggle_eq_of_not_contains (s : Storage) (p a : String)
    (hc : ¬(getStarredHistoryPairs s).contains (getHistoryPairKey p a) = true) :
    toggleStarredHistoryItem s p a =
      (true, setStarredHistoryPairs s (getStarredHistoryPairs s ++ [getHistoryPairKey p a])) := by
  simp only [toggleStarredHistoryItem]
  rw [if_neg hc]

/-- C4: `toggleStarredHistoryItem` is a set-membership toggle on pair
keys: it returns the negation of the current starred state; when the key
is present it removes it (returning false), when absent it appends it
(returning true); and toggling the same pair twice restores the starred
membership of every pair. -/
theorem toggleStarredHistoryItem_toggle_spec (s : Storage) (p a : String) :
    (toggleStarredHistoryItem s p a).1 = !(isHistoryItemStarred s p a) ∧
    getStarredHistoryPairs (toggleStarredHistoryItem s p a).2 =
      (if isHistoryItemStarred s p a then
        (getStarredHistoryPairs s).filter (fun pair => !(pair == getHistoryPairKey p a))
      else getStarredHistoryPairs s ++ [getHistoryPairKey p a]) ∧
    ∀ p' a' : String,
      isHistoryItemStarred
        (toggleStarredHistoryItem (toggleStarredHistoryItem s p a).2 p a).2 p' a' =
      isHistoryItemStarred s p' a' := by
  by_cases hmem : getHistoryPairKey p a ∈ getStarredHistoryPairs s
  · have hc : (getStarredHistoryPairs s).contains (getHistoryPairKey p a) = true :=
      List.elem_iff.mpr hmem
    have hstar : isHistoryItemStarred s p a = true := hc
    have htog := toggle_eq_of_contains s p a hc
    refine ⟨?_, ?_, ?_⟩
    · rw [htog, hstar]
      rfl
    · rw [htog, if_pos hstar]
      rfl
    · intro p' a'
      rw [htog]
      have hnc : ¬(getStarredHistoryPairs (toggleStarredHistoryItem s p a).2).contains
          (getHistoryPairKey p a) = true := by
        rw [htog]
        simp only [getStarred_set]
        rw [contains_filter_not_self]
        exact Bool.false_ne_true
      rw [htog] at hnc
      have htog2 := toggle_eq_of_not_contains _ p a hnc
      rw [htog2]
      show (((getStarredHistoryPairs s).filter (fun pair => !(pair == getHistoryPairKey p a))) ++
          [getHistoryPairKey p a]).contains (getHistoryPairKey p' a') =
        (getStarredHistoryPairs s).contains (getHistoryPairKey p' a')
      have hiff : (getHistoryPairKey p' a' ∈
          ((getStarredHistoryPairs s).filter (fun pair => !(pair == getHistoryPairKey p a))) ++
            [getHistoryPairKey p a]) ↔ getHistoryPairKey p' a' ∈ getStarredHistoryPairs s := by
        constructor
        · intro h
          rcases List.mem_append.mp h with h1 | h1
          · exact (List.mem_filter.mp h1).1
          · have hkk : getHistoryPairKey p' a' = getHistoryPairKey p a := by simpa using h1
            rw [hkk]
            exact hmem
        · intro h
          apply List.mem_append.mpr
          by_cases hkk : getHistoryPairKey p' a' = getHistoryPairKey p a
          · right
            simp [hkk]
          · left
            exact List.mem_filter.mpr ⟨h, by simp [hkk]⟩
      cases hcon : (getStarredHistoryPairs s).contains (getHistoryPairKey p' a') with
      | true => exact List.elem_iff.mpr (hiff.mpr (List.elem_iff.mp hcon))
      | false =>
        rw [Bool.eq_false_iff]
        intro habs
        rw [Bool.eq_false_iff] at hcon
        exact hcon (List.elem_iff.mpr (hiff.mp (List.elem_iff.mp habs)))
  · have hc : ¬(getStarredHistoryPairs s).contains (getHistoryPairKey p a) = true :=
      fun h => hmem (List.elem_iff.mp h)
    have hstar : isHistoryItemStarred s p a = false := by
      rw [Bool.eq_false_iff]
      exact hc
    have htog := toggle_eq_of_not_contains s p a hc
    refine ⟨?_, ?_, ?_⟩
    · rw [htog, hstar]
      rfl
    · rw [htog, if_neg (by simp [hstar])]
      rfl
    · intro p' a'
      rw [htog]
      have hc2 : (getStarredHistoryPairs (toggleStarredHistoryItem s p a).2).contains
          (getHistoryPairKey p a) = true := by
        rw [htog]
        simp only [getStarred_set]
        apply List.elem_iff.mpr
        simp
      rw [htog] at hc2
      have htog2 := toggle_eq_of_contains _ p a hc2
      rw [htog2]
      show (((getStarredHistoryPairs s ++ [getHistoryPairKey p a]).filter
          (fun pair => !(pair == getHistoryPairKey p a)))).contains (getHistoryPairKey p' a') =
        (getStarredHistoryPairs s).contains (getHistoryPairKey p' a')
      rw [List.filter_append]
      rw [filter_not_self_of_not_contains _ _ (Bool.eq_false_iff.mpr hc)]
      simp

/-- The combined starred-and-app-filter predicate that C5 describes. -/
def starredQueryFilter (s : Storage) (app : Option String) (item : UsageHistoryItem) : Bool :=
  (getStarredHistoryPairs s).contains (getHistoryPairKey item.profile item.app) &&
  (if strTruthy app then appFilterMatches (jsToLower (app.getD "")) item else true)

/-- C5: `getStarredUsageHistory` returns exactly the starred history
items matching the app filter (a permutation of that filtering of the
stored history), sorted by timestamp in descending order; with a limit N
it is the first N entries of the unlimited result, and with no limit the
full sorted filtered list. -/
theorem getStarredUsageHistory_spec (s : Storage) (app : Option String) (N : Nat) :
    (getStarredUsageHistory s app none).Perm
      ((getUsageHistory s).filter (starredQueryFilter s app)) ∧
    List.Pairwise (fun x y : UsageHistoryItem => y.timestamp ≤ x.timestamp)
      (getStarredUsageHistory s app none) ∧
    getStarredUsageHistory s app (some N) = (getStarredUsageHistory s app none).take N := by
  have hle_trans : ∀ a b c : UsageHistoryItem,
      decide (b.timestamp ≤ a.timestamp) = true → decide (c.timestamp ≤ b.timestamp) = true →
      decide (c.timestamp ≤ a.timestamp) = true := by
    intro a b c h1 h2
    simp only [decide_eq_true_eq] at h1 h2 ⊢
    exact le_trans h2 h1
  have hle_total : ∀ a b : UsageHistoryItem,
      (decide (b.timestamp ≤ a.timestamp) || decide (a.timestamp ≤ b.timestamp)) = true := by
    intro a b
    rcases Nat.le_total a.timestamp b.timestamp with h | h <;> simp [h]
  have hfeq : (if strTruthy app then
        ((getUsageHistory s).filter (fun item => (getStarredHistoryPairs s).contains
          (getHistoryPairKey item.profile item.app))).filter
            (appFilterMatches (jsToLower (app.getD "")))
      else (getUsageHistory s).filter (fun item => (getStarredHistoryPairs s).contains
        (getHistoryPairKey item.profile item.app))) =
      (getUsageHistory s).filter (starredQueryFilter s app) := by
    by_cases ht : strTruthy app = true
    · rw [if_pos ht, List.filter_filter]
      apply List.filter_congr
      intro item _
      simp only [starredQueryFilter, if_pos ht]
      exact Bool.and_comm _ _
    · rw [if_neg ht]
      apply List.filter_congr
      intro item _
      simp only [starredQueryFilter, if_neg ht, Bool.and_true]
  refine ⟨?_, ?_, ?_⟩
  · show (sortByTimestampDesc _).Perm _
    rw [show (if strTruthy app then
        ((getUsageHistory s).filter (fun item => (getStarredHistoryPairs s).contains
          (getHistoryPairKey item.profile item.app))).filter
            (appFilterMatches (jsToLower (app.getD "")))
      else (getUsageHistory s).filter (fun item => (getStarredHistoryPairs s).contains
        (getHistoryPairKey item.profile item.app))) =
      (getUsageHistory s).filter (starredQueryFilter s app) from hfeq]
    exact List.mergeSort_perm _ _
  · show List.Pairwise _ (sortByTimestampDesc _)
    have hs := List.sorted_mergeSort hle_trans hle_total
      (if strTruthy app then
        ((getUsageHistory s).filter (fun item => (getStarredHistoryPairs s).contains
          (getHistoryPairKey item.profile item.app))).filter
            (appFilterMatches (jsToLower (app.getD "")))
      else (getUsageHistory s).filter (fun item => (getStarredHistoryPairs s).contains
        (getHistoryPairKey item.profile item.app)))
    exact hs.imp (fun h => of_decide_eq_true h)
  · rfl

/-- C6: every reader of an unset storage key falls back to the empty
list: `getUsageHistory`, `getStarredHistoryPairs`, `getCustomApps` and
`getAppSettings` return `[]` when their key holds no value. -/
theorem storage_get_fallback_empty (s : Storage)
    (h1 : s.usageHistory = none) (h2 : s.starredHistoryItems = none)
    (h3 : s.customApps = none) (h4 : s.appSettings = none) :
    getUsageHistory s = [] ∧ getStarredHistoryPairs s = [] ∧
    getCustomApps s = [] ∧ getAppSettings s = [] := by
  simp [getUsageHistory, getStarredHistoryPairs, getCustomApps, getAppSettings, h1, h2, h3, h4]

/-- C6 witness: the four readers on the all-empty store. -/
theorem storage_get_fallback_empty_witness :
    getUsageHistory ⟨none, none, none, none⟩ = [] ∧
    getStarredHistoryPairs ⟨none, none, none, none⟩ = [] ∧
    getCustomApps ⟨none, none, none, none⟩ = [] ∧
    getAppSettings ⟨none, none, none, none⟩ = [] :=
  storage_get_fallback_empty ⟨none, none, none, none⟩ rfl rfl rfl rfl

/-- A string with non-empty character data is not `==` the empty string. -/
theorem beq_empty_false_of_data_ne (x : String) (hx : x.data ≠ []) : (x == "") = false := by
  rw [beq_eq_false_iff_ne]
  intro he
  exact hx (by rw [he])

/-- The stable descending sort permutes its input. -/
theorem sortByTimestampDesc_perm (l : List UsageHistoryItem) :
    (sortByTimestampDesc l).Perm l :=
  List.mergeSort_perm l _

/-- The stable descending sort yields pairwise non-increasing timestamps. -/
theorem sortByTimestampDesc_sorted (l : List UsageHistoryItem) :
    List.Pairwise (fun x y : UsageHistoryItem => y.timestamp ≤ x.timestamp)
      (sortByTimestampDesc l) := by
  have hle_trans : ∀ a b c : UsageHistoryItem,
      decide (b.timestamp ≤ a.timestamp) = true → decide (c.timestamp ≤ b.timestamp) = true →
      decide (c.timestamp ≤ a.timestamp) = true := by
    intro a b c h1 h2
    simp only [decide_eq_true_eq] at h1 h2 ⊢
    exact le_trans h2 h1
  have hle_total : ∀ a b : UsageHistoryItem,
      (decide (b.timestamp ≤ a.timestamp) || decide (a.timestamp ≤ b.timestamp)) = true := by
    intro a b
    rcases Nat.le_total a.timestamp b.timestamp with h | h <;> simp [h]
  exact (List.sorted_mergeSort hle_trans hle_total l).imp (fun h => of_decide_eq_true h)

/-- The four values of `HistoryToolArgs.action` in history.ts. -/
inductive HistoryAction where
  | list
  | star
  | unstar
  | listStarred
deriving DecidableEq

/-- `HistoryToolArgs` (history.ts line 15): all fields optional. -/
structure HistoryToolArgs where
  action : Option HistoryAction
  profile : Option String
  app : Option String
  limit : Option Nat
deriving DecidableEq

/-- The helpers history.ts imports from files outside the given sources:
`defaultApps` (utils/default-apps.ts), `getAppByValue`
(helpers/custom-app-utils.ts) and `formatRelativeDate` (utils/date.ts).
They enter the embedding as opaque parameters. -/
structure ToolEnv where
  defaultApps : List App
  getAppByValue : String → Option App
  formatRelativeDate : Nat → String

/-- `resolveAppValue` (history.ts line 26): case-insensitive lookup of
the input among the visible apps, by value or by display name. -/
def resolveAppValue (env : ToolEnv) (s : Storage) (inputApp : String) :
    Option (String × String) :=
  let allApps := getAllApps env.defaultApps s
  let normalizedInput := jsToLower (jsTrim inputApp)
  match allApps.find? (fun item =>
    jsToLower item.value == normalizedInput || jsToLower item.name == normalizedInput) with
  | some m => some (m.value, m.name)
  | none => none

/-- `formatHistoryLines` (history.ts line 36). -/
def formatHistoryLines (env : ToolEnv) (items : List UsageHistoryItem) : List String :=
  items.map (fun item =>
    let appName :=
      match env.getAppByValue item.app with
      | some info => if info.name == "" then item.appName else info.name
      | none => item.appName
    "• " ++ item.profile ++ " on " ++ appName ++ " (" ++
      env.formatRelativeDate item.timestamp ++ ")")

/-- `getProfileHistory` (history.ts line 56), the body passed to
`safeAsyncOperation`: the reply string together with the resulting
storage (only the toggle branch writes). -/
def getProfileHistoryCore (env : ToolEnv) (s : Storage) (args : HistoryToolArgs) :
    String × Storage :=
  let action := args.action.getD HistoryAction.list
  let limit := args.limit.getD 10
  if action = HistoryAction.star ∨ action = HistoryAction.unstar then
    if !(strTruthy args.profile && strTruthy args.app) then
      ("To star or unstar, provide both profile and app.", s)
    else
      let profile := args.profile.getD ""
      let app := args.app.getD ""
      match resolveAppValue env s app with
      | none => ("App \"" ++ app ++ "\" is not available.", s)
      | some va =>
        let normalizedProfile := if jsStartsWithAt profile then jsDropFirst profile else profile
        let isStarred := isHistoryItemStarred s normalizedProfile va.1
        let label := "@" ++ normalizedProfile ++ " on " ++ va.2
        if action = HistoryAction.star ∧ isStarred = true then
          (label ++ " is already starred.", s)
        else if action = HistoryAction.unstar ∧ isStarred = false then
          (label ++ " is not currently starred.", s)
        else
          ((if action = HistoryAction.star then "Starred " ++ label ++ "."
            else "Unstarred " ++ label ++ "."),
            (toggleStarredHistoryItem s normalizedProfile va.1).2)
  else if action = HistoryAction.listStarred then
    let starredHistory := getStarredUsageHistory s args.app (some limit)
    if starredHistory.length = 0 then
      ((if strTruthy args.app then "No starred profiles found on " ++ args.app.getD "" ++ "."
        else "No starred profiles found."), s)
    else
      let historyLines := formatHistoryLines env starredHistory
      let headerText :=
        if strTruthy args.app then "Starred profiles on " ++ args.app.getD "" ++ ":"
        else "Starred profiles:"
      (headerText ++ "\n\n" ++ String.intercalate "\n" historyLines, s)
  else
    let usageHistory := getUsageHistory s
    if usageHistory.length = 0 then
      ("No profile history found.", s)
    else
      let filteredHistory :=
        if strTruthy args.app then
          usageHistory.filter (appFilterMatches (jsToLower (args.app.getD "")))
        else usageHistory
      if strTruthy args.app ∧ filteredHistory.length = 0 then
        ("No profiles were recently opened on " ++ args.app.getD "" ++ ".", s)
      else
        let sortedHistory := (sortByTimestampDesc filteredHistory).take limit
        let historyLines := formatHistoryLines env sortedHistory
        let headerText :=
          if strTruthy args.app then "Recently opened profiles on " ++ args.app.getD "" ++ ":"
          else "Recently opened profiles:"
        (headerText ++ "\n\n" ++ String.intercalate "\n" historyLines, s)

/-- `getProfileHistory` as exported: the `safeAsyncOperation` wrapper
and the final falsy-result fallback of history.ts line 132. -/
def getProfileHistoryTool (env : ToolEnv) (s : Storage) (args : HistoryToolArgs) :
    String × Storage :=
  let r := getProfileHistoryCore env s args
  ((if (r.1 == "") = true then "Unable to retrieve profile history at this time." else r.1), r.2)

/-- C7: with action "list" and no limit (and no app filter), on a
non-empty history the tool replies with the "Recently opened profiles:"
listing of at most 10 lines - the history sorted by timestamp
descending, truncated to its first 10 entries - and leaves the store
unchanged. -/
theorem getProfileHistory_default_limit (env : ToolEnv) (s : Storage)
    (h : getUsageHistory s ≠ []) :
    (getProfileHistoryTool env s ⟨some HistoryAction.list, none, none, none⟩).2 = s ∧
    (getProfileHistoryTool env s ⟨some HistoryAction.list, none, none, none⟩).1 =
      "Recently opened profiles:" ++ "\n\n" ++ String.intercalate "\n"
        (formatHistoryLines env ((sortByTimestampDesc (getUsageHistory s)).take 10)) ∧
    (formatHistoryLines env ((sortByTimestampDesc (getUsageHistory s)).take 10)).length ≤ 10 ∧
    (sortByTimestampDesc (getUsageHistory s)).Perm (getUsageHistory s) ∧
    List.Pairwise (fun x y : UsageHistoryItem => y.timestamp ≤ x.timestamp)
      (sortByTimestampDesc (getUsageHistory s)) := by
  have hlen : ¬((getUsageHistory s).length = 0) := by
    intro h0
    exact h (List.length_eq_zero.mp h0)
  have hcore : getProfileHistoryCore env s ⟨some HistoryAction.list, none, none, none⟩ =
      ("Recently opened profiles:" ++ "\n\n" ++ String.intercalate "\n"
        (formatHistoryLines env ((sortByTimestampDesc (getUsageHistory s)).take 10)), s) := by
    have hred : getProfileHistoryCore env s ⟨some HistoryAction.list, none, none, none⟩ =
        (if (getUsageHistory s).length = 0 then ("No profile history found.", s)
        else ("Recently opened profiles:" ++ "\n\n" ++ String.intercalate "\n"
          (formatHistoryLines env ((sortByTimestampDesc (getUsageHistory s)).take 10)), s)) := rfl
    rw [hred, if_neg hlen]
  have hne : (("Recently opened profiles:" ++ "\n\n" ++ String.intercalate "\n"
      (formatHistoryLines env ((sortByTimestampDesc (getUsageHistory s)).take 10))) == "") =
      false := by
    apply beq_empty_false_of_data_ne
    simp [String.data_append, List.append_eq_nil]
  refine ⟨?_, ?_, ?_, ?_, ?_⟩
  · simp only [getProfileHistoryTool, hcore]
  · simp only [getProfileHistoryTool, hcore, hne]
    rfl
  · simp only [formatHistoryLines, List.length_map]
    exact List.length_take_le 10 _
  · exact sortByTimestampDesc_perm _
  · exact sortByTimestampDesc_sorted _

/-- A one-entry store for exercising the history tool. -/
def c7Store : Storage := ⟨some [⟨"alice", "x", "X", 5⟩], none, none, none⟩

/-- A concrete tool environment: no default apps, no app lookup, a
constant relative-date formatter. -/
def c7Env : ToolEnv := ⟨[], fun _ => none, fun _ => "just now"⟩

/-- C7 witness: the default-limit listing property at a concrete store. -/
theorem getProfileHistory_default_limit_witness :
    (getProfileHistoryTool c7Env c7Store ⟨some HistoryAction.list, none, none, none⟩).2 = c7Store ∧
    (getProfileHistoryTool c7Env c7Store ⟨some HistoryAction.list, none, none, none⟩).1 =
      "Recently opened profiles:" ++ "\n\n" ++ String.intercalate "\n"
        (formatHistoryLines c7Env ((sortByTimestampDesc (getUsageHistory c7Store)).take 10)) ∧
    (formatHistoryLines c7Env ((sortByTimestampDesc (getUsageHistory c7Store)).take 10)).length ≤ 10 ∧
    (sortByTimestampDesc (getUsageHistory c7Store)).Perm (getUsageHistory c7Store) ∧
    List.Pairwise (fun x y : UsageHistoryItem => y.timestamp ≤ x.timestamp)
      (sortByTimestampDesc (getUsageHistory c7Store)) :=
  getProfileHistory_default_limit c7Env c7Store (by decide)

/-- C9: on already-settled state the star and unstar actions only report:
starring an already-starred pair, or unstarring a not-starred pair,
returns an informational message and leaves the whole store unchanged. -/
theorem starUnstar_settled_noop (env : ToolEnv) (s : Storage) (p a v nm : String)
    (lim : Option Nat) (hp : p ≠ "") (ha : a ≠ "")
    (hres : resolveAppValue env s a = some (v, nm)) :
    (isHistoryItemStarred s (if jsStartsWithAt p then jsDropFirst p else p) v = true →
      getProfileHistoryTool env s ⟨some HistoryAction.star, some p, some a, lim⟩ =
        (("@" ++ (if jsStartsWithAt p then jsDropFirst p else p) ++ " on " ++ nm) ++
          " is already starred.", s)) ∧
    (isHistoryItemStarred s (if jsStartsWithAt p then jsDropFirst p else p) v = false →
      getProfileHistoryTool env s ⟨some HistoryAction.unstar, some p, some a, lim⟩ =
        (("@" ++ (if jsStartsWithAt p then jsDropFirst p else p) ++ " on " ++ nm) ++
          " is not currently starred.", s)) := by
  have hpb : (p == "") = false := beq_eq_false_iff_ne.mpr hp
  have hab : (a == "") = false := beq_eq_false_iff_ne.mpr ha
  have hlabel : ∀ x : String,
      ((("@" ++ (if jsStartsWithAt p then jsDropFirst p else p) ++ " on " ++ nm) ++ x) == "") =
      false := by
    intro x
    apply beq_empty_false_of_data_ne
    simp [String.data_append, List.append_eq_nil]
  constructor
  · intro hstar
    have hcore : getProfileHistoryCore env s ⟨some HistoryAction.star, some p, some a, lim⟩ =
        (("@" ++ (if jsStartsWithAt p then jsDropFirst p else p) ++ " on " ++ nm) ++
          " is already starred.", s) := by
      simp [getProfileHistoryCore, strTruthy, hpb, hab, hres, hstar]
    simp only [getProfileHistoryTool, hcore, hlabel]
    rfl
  · intro hstar
    have hcore : getProfileHistoryCore env s ⟨some HistoryAction.unstar, some p, some a, lim⟩ =
        (("@" ++ (if jsStartsWithAt p then jsDropFirst p else p) ++ " on " ++ nm) ++
          " is not currently starred.", s) := by
      simp [getProfileHistoryCore, strTruthy, hpb, hab, hres, hstar]
    simp only [getProfileHistoryTool, hcore, hlabel]
    rfl

/-- The head surviving `dropWhile` does not satisfy the predicate. -/
theorem dropWhile_head?_false {α : Type} (p : α → Bool) :
    ∀ (l : List α) (c : α), (l.dropWhile p).head? = some c → p c = false := by
  intro l
  induction l with
  | nil => intro c hc; simp at hc
  | cons a t ih =>
    intro c hc
    rw [List.dropWhile_cons] at hc
    by_cases hpa : p a = true
    · rw [if_pos hpa] at hc
      exact ih c hc
    · rw [if_neg hpa] at hc
      simp only [List.head?_cons, Option.some.injEq] at hc
      rw [← hc]
      exact Bool.eq_false_iff.mpr hpa

/-- A list whose head does not satisfy the predicate is `dropWhile`-fixed. -/
theorem dropWhile_eq_self_of_head {α : Type} (p : α → Bool) (l : List α)
    (h : ∀ c, l.head? = some c → p c = false) : l.dropWhile p = l := by
  cases l with
  | nil => rfl
  | cons a t =>
    have ha := h a rfl
    rw [List.dropWhile_cons, if_neg (by simp [ha])]

/-- `dropWhile` is idempotent. -/
theorem dropWhile_idem {α : Type} (p : α → Bool) (l : List α) :
    (l.dropWhile p).dropWhile p = l.dropWhile p :=
  dropWhile_eq_self_of_head p _ (dropWhile_head?_false p l)

/-- Right-trimming a list yields one of its prefixes. -/
theorem reverse_dropWhile_reverse_prefix {α : Type} (p : α → Bool) (l : List α) :
    (l.reverse.dropWhile p).reverse <+: l := by
  have hs : (l.reverse.dropWhile p) <:+ l.reverse := List.dropWhile_suffix p
  have := List.reverse_prefix.mpr hs
  rwa [List.reverse_reverse] at this

/-- JS `trim` is idempotent at the character-list level. -/
theorem trimChars_idem (cs : List Char) : trimChars (trimChars cs) = trimChars cs := by
  have hA : (trimChars cs).dropWhile Char.isWhitespace = trimChars cs := by
    apply dropWhile_eq_self_of_head
    intro c hc
    have hpre : trimChars cs <+: cs.dropWhile Char.isWhitespace :=
      reverse_dropWhile_reverse_prefix Char.isWhitespace (cs.dropWhile Char.isWhitespace)
    rcases hpre with ⟨t, ht⟩
    have hhead : (cs.dropWhile Char.isWhitespace).head? = some c := by
      rw [← ht, List.head?_append, hc]
      rfl
    exact dropWhile_head?_false Char.isWhitespace cs c hhead
  show ((((trimChars cs).dropWhile Char.isWhitespace).reverse.dropWhile
      Char.isWhitespace)).reverse = trimChars cs
  rw [hA]
  have hrev : (trimChars cs).reverse =
      (cs.dropWhile Char.isWhitespace).reverse.dropWhile Char.isWhitespace := by
    simp [trimChars, List.reverse_reverse]
  rw [hrev, dropWhile_idem, ← hrev, List.reverse_reverse]

/-- Prepending `@` to an already-trimmed list is again trimmed. -/
theorem trimChars_at_cons (cs : List Char) :
    trimChars ('@' :: trimChars cs) = '@' :: trimChars cs := by
  have hleft : ('@' :: trimChars cs).dropWhile Char.isWhitespace = '@' :: trimChars cs := by
    apply dropWhile_eq_self_of_head
    intro c hc
    simp only [List.head?_cons, Option.some.injEq] at hc
    rw [← hc]
    decide
  show ((('@' :: trimChars cs).dropWhile Char.isWhitespace).reverse.dropWhile
      Char.isWhitespace).reverse = '@' :: trimChars cs
  rw [hleft]
  have hright : ('@' :: trimChars cs).reverse.dropWhile Char.isWhitespace =
      ('@' :: trimChars cs).reverse := by
    apply dropWhile_eq_self_of_head
    intro c hc
    have hrev : ('@' :: trimChars cs).reverse = (trimChars cs).reverse ++ ['@'] := by
      simp
    rw [hrev, List.head?_append] at hc
    cases hr : (trimChars cs).reverse.head? with
    | none =>
      rw [hr] at hc
      simp only [Option.or] at hc
      have : c = '@' := by
        simp at hc
        exact hc.symm
      rw [this]
      decide
    | some d =>
      rw [hr] at hc
      simp only [Option.or, Option.some.injEq] at hc
      have hd : Char.isWhitespace d = false := by
        have hrr : (trimChars cs).reverse =
            (cs.dropWhile Char.isWhitespace).reverse.dropWhile Char.isWhitespace := by
          simp [trimChars, List.reverse_reverse]
        rw [hrr] at hr
        exact dropWhile_head?_false Char.isWhitespace _ d hr
      rw [← hc]
      exact hd
  rw [hright, List.reverse_reverse]

/-- A store with the single starred pair key "x::alice". -/
def c8Store : Storage := ⟨none, some ["x::alice"], none, none⟩

/-- C8 counterexample: the profiles "@ alice" and "alice" agree up to a
leading "@", surrounding whitespace and case - stripping the leading "@"
of "@ alice" leaves " alice", which trims and lowercases to "alice" -
yet `isHistoryItemStarred` answers differently on them, because the code
strips "@" only when it is still leading after trimming. -/
theorem starred_key_normalized_counterexample :
    jsToLower (jsTrim (jsDropFirst "@ alice")) = jsToLower (jsTrim "alice") ∧
    isHistoryItemStarred c8Store "alice" "x" = true ∧
    isHistoryItemStarred c8Store "@ alice" "x" = false := by decide

/-- C8 (amended): `getHistoryPairKey` normalizes by trimming first, then
stripping one "@" only when it is the first character of the trimmed
profile, then lowercasing.  Inputs with equal such normal forms give
equal starred checks and equal toggles, and the key is invariant under
pre-trimming its arguments and under an "@" prepended directly to an
already-trimmed profile not itself starting with "@"; an "@" separated
from the name by whitespace is not stripped. -/
theorem starred_key_normalized (s : Storage) (p₁ p₂ a₁ a₂ : String)
    (hp : normalizeProfile p₁ = normalizeProfile p₂)
    (ha : normalizeApp a₁ = normalizeApp a₂) :
    isHistoryItemStarred s p₁ a₁ = isHistoryItemStarred s p₂ a₂ ∧
    toggleStarredHistoryItem s p₁ a₁ = toggleStarredHistoryItem s p₂ a₂ ∧
    getHistoryPairKey (jsTrim p₁) (jsTrim a₁) = getHistoryPairKey p₁ a₁ ∧
    (jsStartsWithAt (jsTrim p₁) = false →
      getHistoryPairKey ("@" ++ jsTrim p₁) a₁ = getHistoryPairKey p₁ a₁) := by
  have hkey : getHistoryPairKey p₁ a₁ = getHistoryPairKey p₂ a₂ := by
    rw [getHistoryPairKey, getHistoryPairKey, hp, ha]
  have htrimp : jsTrim (jsTrim p₁) = jsTrim p₁ :=
    congrArg String.mk (trimChars_idem p₁.data)
  have htrima : jsTrim (jsTrim a₁) = jsTrim a₁ :=
    congrArg String.mk (trimChars_idem a₁.data)
  refine ⟨?_, ?_, ?_, ?_⟩
  · rw [isHistoryItemStarred, isHistoryItemStarred, hkey]
  · unfold toggleStarredHistoryItem
    rw [hkey]
  · simp only [getHistoryPairKey, normalizeApp, normalizeProfile, htrimp, htrima]
  · intro hats
    have htr : jsTrim ("@" ++ jsTrim p₁) = ⟨'@' :: trimChars p₁.data⟩ := by
      have hdata : ("@" ++ jsTrim p₁).data = '@' :: trimChars p₁.data := by
        rw [String.data_append]
        rfl
      show String.mk (trimChars ("@" ++ jsTrim p₁).data) = String.mk ('@' :: trimChars p₁.data)
      rw [hdata, trimChars_at_cons]
    simp only [getHistoryPairKey, normalizeProfile, htr]
    rw [if_pos (show jsStartsWithAt ⟨'@' :: trimChars p₁.data⟩ = true from rfl)]
    rw [if_neg (by simp [hats])]
    rfl

/-- C8 amended witness: "  @Alice " and "@alice" with apps "X " and "x"
normalize alike and star-check alike on the concrete store. -/
theorem starred_key_normalized_witness :
    isHistoryItemStarred c8Store "  @Alice " "X " = isHistoryItemStarred c8Store "@alice" "x" ∧
    toggleStarredHistoryItem c8Store "  @Alice " "X " =
      toggleStarredHistoryItem c8Store "@alice" "x" ∧
    getHistoryPairKey (jsTrim "  @Alice ") (jsTrim "X ") = getHistoryPairKey "  @Alice " "X " ∧
    (jsStartsWithAt (jsTrim "  @Alice ") = false →
      getHistoryPairKey ("@" ++ jsTrim "  @Alice ") "X " = getHistoryPairKey "  @Alice " "X ") :=
  starred_key_normalized c8Store "  @Alice " "@alice" "X " "x" (by decide) (by decide)

/-- The settings-map fold looks up the last matching entry, falling back
to the initial map. -/
theorem foldl_settings_lookup (l : List AppSetting) (k : String) :
    ∀ init : String → Option AppSetting,
      (l.foldl (fun m setting => fun q => if q == setting.value then some setting else m q)
        init) k =
      (match l.reverse.find? (fun st => k == st.value) with
      | some st => some st
      | none => init k) := by
  induction l with
  | nil => intro init; rfl
  | cons x t ih =>
    intro init
    rw [List.foldl_cons, ih]
    rw [show (x :: t).reverse = t.reverse ++ [x] from by simp]
    rw [List.find?_append]
    cases hf : t.reverse.find? (fun st => k == st.value) with
    | some st => rfl
    | none =>
      cases hkx : (k == x.value) with
      | true => simp [List.find?, hkx]
      | false => simp [List.find?, hkx]

/-- The settings `Map` lookup equals searching the settings list from
the back (later entries overwrite earlier ones). -/
theorem buildSettingsMap_eq_find_last (settings : List AppSetting) (k : String) :
    buildSettingsMap settings k = settings.reverse.find? (fun st => k == st.value) := by
  unfold buildSettingsMap
  rw [foldl_settings_lookup settings k (fun _ => none)]
  cases hf : settings.reverse.find? (fun st => k == st.value) <;> rfl

/-- A store whose settings list holds two entries for the value "a":
first visible, then hidden; and one custom app "a". -/
def c10Store : Storage :=
  ⟨none, none, some [⟨"a", true⟩, ⟨"a", false⟩], some [⟨"a", "A", "u"⟩]⟩

/-- C10 counterexample: the custom app "a" has an `AppSetting` entry
with visible = true, so the claim includes it, yet `getAllApps` excludes
it: the later entry with visible = false overwrites the earlier one in
the settings map. -/
theorem getAllApps_default_visible_counterexample :
    (⟨"a", true⟩ : AppSetting) ∈ getAppSettings c10Store ∧
    (⟨"a", "A", "u"⟩ : App) ∈ getCustomApps c10Store ∧
    getAllApps [] c10Store = [] := by decide

/-- C10 (amended): `getAllApps` returns the default apps followed by the
custom apps, keeping exactly those whose value has no settings entry or
whose last matching settings entry (later entries overwrite earlier
ones under the same value) has visible = true; apps without any entry
default to visible, and the defaults-then-customs order is preserved by
the filter. -/
theorem getAllApps_default_visible (defaultApps : List App) (s : Storage) :
    getAllApps defaultApps s =
      (defaultApps ++ getCustomApps s).filter (fun app =>
        match (getAppSettings s).reverse.find? (fun st => app.value == st.value) with
        | some st => st.visible
        | none => true) := by
  simp only [getAllApps]
  apply List.filter_congr
  intro app _
  rw [buildSettingsMap_eq_find_last]

/-- A tool environment whose only app is ("x", "X"). -/
def c9Env : ToolEnv := ⟨[⟨"x", "X", "u"⟩], fun _ => none, fun _ => "now"⟩

/-- A store where the pair (alice, x) is starred. -/
def c9Store : Storage := ⟨none, some ["x::alice"], none, none⟩

/-- C9 witness: star and unstar for (alice, x) on the concrete store
where that pair is starred. -/
theorem starUnstar_settled_noop_witness :
    (isHistoryItemStarred c9Store
        (if jsStartsWithAt "alice" then jsDropFirst "alice" else "alice") "x" = true →
      getProfileHistoryTool c9Env c9Store ⟨some HistoryAction.star, some "alice", some "x", none⟩ =
        (("@" ++ (if jsStartsWithAt "alice" then jsDropFirst "alice" else "alice") ++
          " on " ++ "X") ++ " is already starred.", c9Store)) ∧
    (isHistoryItemStarred c9Store
        (if jsStartsWithAt "alice" then jsDropFirst "alice" else "alice") "x" = false →
      getProfileHistoryTool c9Env c9Store ⟨some HistoryAction.unstar, some "alice", some "x", none⟩ =
        (("@" ++ (if jsStartsWithAt "alice" then jsDropFirst "alice" else "alice") ++
          " on " ++ "X") ++ " is not currently starred.", c9Store)) :=
  starUnstar_settled_noop c9Env c9Store "alice" "x" "x" "X" none
    (by decide) (by decide) (by decide)
